import Mathlib

/-!
Shallow embedding of the unifi-ddns Cloudflare Worker: the request
interpreter and DNS-update orchestrator (index source file) and the
provider-client boundary (src/cloudflare-client.ts).

JS strings are Lean Strings; JS falsiness of "" and 0 is modelled by the
jsOr helpers; the Cloudflare SDK underneath the client (this.client) is an
abstract RawApi record of pure fallible functions.  Every call the worker
issues to the provider boundary is recorded in a trace, so that claims
about call counts, memoization, abort order and issued request bodies are
statements about the trace.
-/

instance {ε α : Type} [DecidableEq ε] [DecidableEq α] :
    DecidableEq (Except ε α) := fun x y =>
  match x, y with
  | .ok a, .ok b =>
    if h : a = b then .isTrue (h ▸ rfl)
    else .isFalse (fun hh => h (Except.ok.inj hh))
  | .error a, .error b =>
    if h : a = b then .isTrue (h ▸ rfl)
    else .isFalse (fun hh => h (Except.error.inj hh))
  | .ok _, .error _ => .isFalse (fun hh => Except.noConfusion hh)
  | .error _, .ok _ => .isFalse (fun hh => Except.noConfusion hh)

/-- JS `a || b` for strings: the empty string is falsy. -/
def jsOrStr (a b : String) : String := if a == "" then b else a

/-- JS `a || b` for numbers: 0 is falsy. -/
def jsOrNat (a b : Nat) : Nat := if a == 0 then b else a

/-- JS `a || b` where `a` may be null/undefined and "" is falsy. -/
def jsOr (a b : Option String) : Option String :=
  match a with
  | some s => if s == "" then b else some s
  | none => b

/-- JS truthiness of a nullable string. -/
def jsTruthy : Option String → Bool
  | some s => s != ""
  | none => false

/-- A source string value that is JS-falsy: absent or empty. -/
def optFalsy (o : Option String) : Prop := o = none ∨ o = some ""

/-- JS `String.prototype.split` with a one-character separator. -/
def splitOnChar (sep : Char) : List Char → List (List Char)
  | [] => [[]]
  | c :: rest =>
    match splitOnChar sep rest with
    | [] => [[]]
    | g :: gs => if c == sep then [] :: g :: gs else (c :: g) :: gs

/-- JS `s.split(sep)` for a single-character separator. -/
def jsSplit (s : String) (sep : Char) : List String :=
  (splitOnChar sep s.toList).map String.mk

/-- JS whitespace for `String.prototype.trim`. -/
def isJsSpace (c : Char) : Bool :=
  c == ' ' || c == '\t' || c == '\n' || c == '\r' ||
  c == Char.ofNat 0x0B || c == Char.ofNat 0x0C || c == Char.ofNat 0xA0 ||
  c == Char.ofNat 0x1680 || (0x2000 ≤ c.toNat && c.toNat ≤ 0x200A) ||
  c == Char.ofNat 0x2028 || c == Char.ofNat 0x2029 || c == Char.ofNat 0x202F ||
  c == Char.ofNat 0x205F || c == Char.ofNat 0x3000 || c == Char.ofNat 0xFEFF

/-- JS `s.trim()`. -/
def jsTrim (s : String) : String :=
  String.mk (((s.toList.dropWhile isJsSpace).reverse.dropWhile isJsSpace).reverse)

/-- JS `s.endsWith(suffix)`. -/
def strEndsWith (s suf : String) : Bool := suf.toList.isSuffixOf s.toList

/-- JS regexp line terminators (characters not matched by `.`). -/
def isLineTerm (c : Char) : Bool :=
  c == '\n' || c == '\r' || c == Char.ofNat 0x2028 || c == Char.ofNat 0x2029

/-- The hostname rewrite `hostname.replace(/.*?([^.]+\.[^.]+)$/, "$1")`:
when the string ends in two nonempty dot-free labels separated by a dot,
the first match (earliest start not blocked by a line terminator, lazy
prefix) spans to the end and is replaced by those last two labels; any
part of the string separated from them by a line terminator survives,
and a string with no such tail is returned unchanged. -/
def replaceLastTwoLabels (s : String) : String :=
  let rev := s.toList.reverse
  let l2 := rev.takeWhile (fun c => c != '.')
  match rev.dropWhile (fun c => c != '.') with
  | '.' :: rest =>
    let l1 := rest.takeWhile (fun c => c != '.')
    if l2.isEmpty || l1.isEmpty then s
    else
      let keepRev := (rest.drop l1.length).dropWhile (fun c => !(isLineTerm c))
      String.mk (keepRev.reverse ++ (l1.reverse ++ '.' :: l2.reverse))
  | _ => s

/-- Base64 digit value (standard alphabet), none for an invalid character. -/
def b64Val (c : Char) : Option Nat :=
  if 'A' ≤ c ∧ c ≤ 'Z' then some (c.toNat - 65)
  else if 'a' ≤ c ∧ c ≤ 'z' then some (c.toNat - 97 + 26)
  else if '0' ≤ c ∧ c ≤ '9' then some (c.toNat - 48 + 52)
  else if c = '+' then some 62
  else if c = '/' then some 63
  else none

/-- ASCII whitespace removed by forgiving-base64 before decoding. -/
def isB64Ws (c : Char) : Bool :=
  c == '\t' || c == '\n' || c == Char.ofNat 0x0C || c == '\r' || c == ' '

/-- Strip up to two trailing `=` when the length is a multiple of four. -/
def stripB64Padding (cs : List Char) : List Char :=
  if cs.length % 4 == 0 then
    match cs.reverse with
    | '=' :: '=' :: rest => rest.reverse
    | '=' :: rest => rest.reverse
    | _ => cs
  else cs

/-- Reassemble decoded bytes from the 6-bit values (forgiving: leftover
bits of a trailing 2- or 3-character group are discarded). -/
def b64Bytes : List Nat → Option (List Nat)
  | [] => some []
  | [_] => none
  | [a, b] => some [a * 4 + b / 16]
  | [a, b, c] => some [a * 4 + b / 16, (b % 16) * 16 + c / 4]
  | a :: b :: c :: d :: rest =>
    match b64Bytes rest with
    | none => none
    | some bs =>
      some ((a * 4 + b / 16) :: ((b % 16) * 16 + c / 4) :: ((c % 4) * 64 + d) :: bs)

/-- JS `atob` (forgiving base64 decode); none models the thrown
InvalidCharacterError. -/
def atob? (s : String) : Option String :=
  let cs := stripB64Padding (s.toList.filter (fun c => !(isB64Ws c)))
  if cs.length % 4 == 1 then none
  else
    match cs.mapM b64Val with
    | none => none
    | some vals =>
      match b64Bytes vals with
      | none => none
      | some bytes => some (String.mk (bytes.map Char.ofNat))

/-! ## Error model

BadRequestException carries status 400; CloudflareApiException carries an
upstream-derived status; generic models any other thrown value (such as
the DOMException from `atob`), which has no `status` property, so the
top-level handler falls back to 500. -/

inductive WorkerError where
  | badRequest (reason : String)
  | api (reason : String) (status : Nat)
  | generic (message : String)
deriving DecidableEq

/-- `err.status || 500` in the top-level fetch handler. -/
def errStatus : WorkerError → Nat
  | .badRequest _ => 400
  | .api _ s => jsOrNat s 500
  | .generic _ => 500

/-- `err.reason || err.message || "Unknown Error"`: no error class sets a
`reason` property, so the message (the constructor reason) is used. -/
def errMessage : WorkerError → String
  | .badRequest r => jsOrStr r "Unknown Error"
  | .api r _ => jsOrStr r "Unknown Error"
  | .generic m => jsOrStr m "Unknown Error"

/-! ## Data model of the provider boundary (src/cloudflare-client.ts) -/

structure CloudflareZone where
  id : String
  name : String
deriving DecidableEq

structure CloudflareDnsRecord where
  id : String
  zone_id : String
  rtype : String
  name : String
  content : String
  proxied : Bool
  ttl : Nat
deriving DecidableEq

/-- An error thrown by the Cloudflare SDK; status 0 models a missing
(falsy) `status` property. -/
structure RawErr where
  message : String
  status : Nat
deriving DecidableEq

structure RawZone where
  id : String
  name : String
deriving DecidableEq

/-- A record as listed by the SDK; "" / 0 model missing (falsy) fields,
matching the `||` defaults applied in findRecord. -/
structure RawDnsRecord where
  id : String
  name : String
  rtype : String
  content : String
  proxied : Bool
  ttl : Nat
deriving DecidableEq

/-- The body of `this.client.dns.records.edit`. -/
structure EditParams where
  zone_id : String
  rtype : String
  name : String
  content : String
  ttl : Nat
  proxied : Bool
deriving DecidableEq

/-- The PUT body of the access-group update: `includeIps` holds the ip
strings of its `{ip: {ip: ...}}` include entries (the JS field is named
`include`, a Lean keyword). -/
structure AccessGroupBody where
  name : String
  includeIps : List String
deriving DecidableEq

/-- One HTTP call issued by the client to the Cloudflare SDK. -/
inductive RawCall where
  | zonesList (name : String)
  | dnsRecordsList (zoneId : String) (rtype : String)
  | dnsRecordsEdit (id : String) (params : EditParams)
  | accessGroupPut (account : String) (group : String) (body : AccessGroupBody)
deriving DecidableEq

/-- The Cloudflare SDK (`this.client`) as a black box of pure fallible
endpoints. -/
structure RawApi where
  zonesList : String → Except RawErr (List RawZone)
  dnsRecordsList : String → String → Except RawErr (List RawDnsRecord)
  dnsRecordsEdit : String → EditParams → Except RawErr Unit
  accessGroupPut : String → String → AccessGroupBody → Except RawErr Unit

namespace CloudflareClient

/-- `findZone`: list zones by name; empty result is a 404; an SDK error is
wrapped with `error.status || 500`. -/
def findZone (api : RawApi) (name : String) :
    List RawCall × Except WorkerError CloudflareZone :=
  ([RawCall.zonesList name],
    match api.zonesList name with
    | .error e => .error (.api e.message (jsOrNat e.status 500))
    | .ok result =>
      match result with
      | [] => .error (.api ("Failed to find zone \x27" ++ name ++ "\x27") 404)
      | z :: _ => .ok { id := z.id, name := z.name })

/-- `findRecord`: list records of the derived type in the zone, filter by
exact name on our side, default missing fields. -/
def findRecord (api : RawApi) (zone : CloudflareZone) (name : String)
    (isIPV4 : Bool) : List RawCall × Except WorkerError CloudflareDnsRecord :=
  let recordType := if isIPV4 then "A" else "AAAA"
  ([RawCall.dnsRecordsList zone.id recordType],
    match api.dnsRecordsList zone.id recordType with
    | .error e => .error (.api e.message (jsOrNat e.status 500))
    | .ok result =>
      match result.filter (fun r => r.name == name) with
      | [] =>
        .error (.api ("Failed to find DNS record \x27" ++ name ++ "\x27") 404)
      | r :: _ =>
        .ok { id := r.id, zone_id := zone.id,
              rtype := jsOrStr r.rtype recordType,
              name := jsOrStr r.name name,
              content := jsOrStr r.content "",
              proxied := (r.proxied || false),
              ttl := jsOrNat r.ttl 1 })

/-- `updateRecord`: edit the record, passing through every attribute of the
given record except `content`, which becomes the new value. -/
def updateRecord (api : RawApi) (record : CloudflareDnsRecord)
    (value : String) : List RawCall × Except WorkerError CloudflareDnsRecord :=
  let params : EditParams :=
    { zone_id := record.zone_id, rtype := record.rtype, name := record.name,
      content := value, ttl := record.ttl, proxied := record.proxied }
  ([RawCall.dnsRecordsEdit record.id params],
    match api.dnsRecordsEdit record.id params with
    | .error e => .error (.api e.message (jsOrNat e.status 500))
    | .ok _ =>
      .ok { id := record.id, zone_id := record.zone_id, rtype := record.rtype,
            name := record.name, content := value, proxied := record.proxied,
            ttl := record.ttl })

/-- `updateAccessGroup`: PUT the group with a single `{ip}/32` include
entry. -/
def updateAccessGroup (api : RawApi) (account group ip : String) :
    List RawCall × Except WorkerError Unit :=
  let body : AccessGroupBody :=
    { name := "Local IP Address", includeIps := [ip ++ "/32"] }
  ([RawCall.accessGroupPut account group body],
    match api.accessGroupPut account group body with
    | .error e => .error (.api e.message (jsOrNat e.status 500))
    | .ok _ => .ok ())

end CloudflareClient

/-! ## Orchestrator (updateDNSRecords) -/

/-- One call the orchestrator makes on the provider-client boundary. -/
inductive ClientCall where
  | findZone (name : String)
  | findRecord (zone : CloudflareZone) (name : String) (isIPV4 : Bool)
  | updateRecord (record : CloudflareDnsRecord) (value : String)
  | updateAccessGroup (account group ip : String)
deriving DecidableEq

/-- The per-call zone cache (`const zones = new Map()`), as an insertion
list looked up by first match. -/
def lookupZone (zones : List (String × CloudflareZone)) (d : String) :
    Option CloudflareZone :=
  (zones.find? (fun p => p.1 == d)).map (fun p => p.2)

/-- `name && hostname.endsWith(name) ? name : hostname.replace(...)`. -/
def domainNameFor (name? : Option String) (hostname : String) : String :=
  match name? with
  | some n =>
    if n != "" && strEndsWith hostname n then n else replaceLastTwoLabels hostname
  | none => replaceLastTwoLabels hostname

/-- The record lookup and unconditional update for one hostname, given the
already-resolved zone; `tz` is the trace of the zone-resolution step. -/
def goStepRecord (api : RawApi) (ip : String) (isIPV4 : Bool)
    (hostname : String) (zones : List (String × CloudflareZone))
    (tz : List ClientCall) (zone : CloudflareZone) :
    List ClientCall × List (String × CloudflareZone) × Except WorkerError Unit :=
  match (CloudflareClient.findRecord api zone hostname isIPV4).2 with
  | .error e => (tz ++ [ClientCall.findRecord zone hostname isIPV4], zones, .error e)
  | .ok record =>
    match (CloudflareClient.updateRecord api record ip).2 with
    | .error e =>
      (tz ++ [ClientCall.findRecord zone hostname isIPV4,
              ClientCall.updateRecord record ip], zones, .error e)
    | .ok _ =>
      (tz ++ [ClientCall.findRecord zone hostname isIPV4,
              ClientCall.updateRecord record ip], zones, .ok ())

/-- The loop body of updateDNSRecords for one hostname: resolve the domain,
consult or fill the zone cache, then look up and update the record. -/
def goStep (api : RawApi) (ip : String) (isIPV4 : Bool)
    (name? : Option String) (hostname : String)
    (zones : List (String × CloudflareZone)) :
    List ClientCall × List (String × CloudflareZone) × Except WorkerError Unit :=
  let domainName := domainNameFor name? hostname
  match lookupZone zones domainName with
  | some zone => goStepRecord api ip isIPV4 hostname zones [] zone
  | none =>
    match (CloudflareClient.findZone api domainName).2 with
    | .error e => ([ClientCall.findZone domainName], zones, .error e)
    | .ok z =>
      goStepRecord api ip isIPV4 hostname (zones ++ [(domainName, z)])
        [ClientCall.findZone domainName] z

/-- The `for (const hostname of hostnames)` loop: strictly sequential,
aborting on the first error. -/
def updateDNSRecordsGo (api : RawApi) (ip : String) (isIPV4 : Bool)
    (name? : Option String) :
    List String → List (String × CloudflareZone) →
    List ClientCall × List (String × CloudflareZone) × Except WorkerError Unit
  | [], zones => ([], zones, .ok ())
  | hostname :: rest, zones =>
    let s := goStep api ip isIPV4 name? hostname zones
    match s.2.2 with
    | .error e => (s.1, s.2.1, .error e)
    | .ok _ =>
      let t := updateDNSRecordsGo api ip isIPV4 name? rest s.2.1
      (s.1 ++ t.1, t.2.1, t.2.2)

/-- `updateDNSRecords(cloudflare, hostnames, ip, name)`: the record type is
A when the ip contains a dot, the zone cache starts empty. -/
def updateDNSRecords (api : RawApi) (hostnames : List String) (ip : String)
    (name? : Option String) : List ClientCall × Except WorkerError Unit :=
  let isIPV4 := ip.toList.contains '.'
  let r := updateDNSRecordsGo api ip isIPV4 name? hostnames []
  (r.1, r.2.2)

/-! ## Request interpreter (index source file) -/

structure Env where
  DDNS_TOKEN : String
  ACCOUNT_ID : Option String := none
  ACCESS_GROUP_ID : Option String := none
deriving DecidableEq

/-- An inbound request, pre-parsed: scheme of the URL, pathname, search
parameters and headers as first-match key/value lists. -/
structure Request where
  scheme : String
  pathname : String
  searchParams : List (String × String)
  headers : List (String × String)
deriving DecidableEq

def getKV (l : List (String × String)) (k : String) : Option String :=
  (l.find? (fun p => p.1 == k)).map (fun p => p.2)

def paramGet (r : Request) (k : String) : Option String := getKV r.searchParams k

def headerGet (r : Request) (k : String) : Option String := getKV r.headers k

structure AuthCredentials where
  username : Option String := none
  password : Option String := none
deriving DecidableEq

structure Response where
  status : Nat
  body : Option String
deriving DecidableEq

/-- `parseBasicAuth`: split the header on spaces, base64-decode the second
word (JS coerces a missing word to the string "undefined"), reject a
decode with no colon or with a control byte.  A failed decode is the
uncaught DOMException from atob, not a BadRequestException. -/
def parseBasicAuth (request : Request) : Except WorkerError AuthCredentials :=
  match headerGet request "Authorization" with
  | none => .ok {}
  | some authorization =>
    if authorization == "" then .ok {}
    else
      let data := (jsSplit authorization ' ').getD 1 "undefined"
      match atob? data with
      | none => .error (.generic "InvalidCharacterError")
      | some decoded =>
        let cs := decoded.toList
        if !(cs.contains ':') ||
            cs.any (fun c => c.toNat ≤ 0x1F || c.toNat == 0x7F) then
          .error (.badRequest "Invalid authorization value.")
        else
          .ok { username := some (String.mk (cs.takeWhile (fun c => c != ':'))),
                password := some (String.mk ((cs.dropWhile (fun c => c != ':')).tail)) }

/-- `hostname || host || domains`, split on commas. -/
def resolvedHostnames (request : Request) : Option (List String) :=
  (jsOr (paramGet request "hostname")
    (jsOr (paramGet request "host") (paramGet request "domains"))).map
    (fun s => jsSplit s ',')

/-- `ips || ip || myip || Cf-Connecting-Ip header`, split on commas. -/
def resolvedIps (request : Request) : Option (List String) :=
  (jsOr (paramGet request "ips")
    (jsOr (paramGet request "ip")
      (jsOr (paramGet request "myip")
        (headerGet request "Cf-Connecting-Ip")))).map (fun s => jsSplit s ',')

/-- The `for (const ip of ips)` loop: update all hostnames for the trimmed
ip, then, when both identifiers are truthy, update the access group with
the untrimmed ip. -/
def handleIPs (api : RawApi) (hostnames : List String) (name? : Option String)
    (accountId accessGroupId : Option String) :
    List String → List ClientCall × Except WorkerError Unit
  | [] => ([], .ok ())
  | ip :: rest =>
    let d := updateDNSRecords api hostnames (jsTrim ip) name?
    match d.2 with
    | .error e => (d.1, .error e)
    | .ok _ =>
      if jsTruthy accountId && jsTruthy accessGroupId then
        let a := accountId.getD ""
        let g := accessGroupId.getD ""
        match (CloudflareClient.updateAccessGroup api a g ip).2 with
        | .error e => (d.1 ++ [ClientCall.updateAccessGroup a g ip], .error e)
        | .ok _ =>
          let t := handleIPs api hostnames name? accountId accessGroupId rest
          (d.1 ++ ClientCall.updateAccessGroup a g ip :: t.1, t.2)
      else
        let t := handleIPs api hostnames name? accountId accessGroupId rest
        (d.1 ++ t.1, t.2)

/-- `handleRequest`: path filtering, authentication presence, Basic-Auth
parsing, source resolution, validation, then the per-ip loop.  (The bearer
token `password || token || env.DDNS_TOKEN` only selects the credential of
the already-abstract api, so it does not appear in the pure model.) -/
def handleRequest (request : Request) (env : Env) (api : RawApi) :
    List ClientCall × Except WorkerError Response :=
  if request.pathname == "/favicon.ico" || request.pathname == "/robots.txt" then
    ([], .ok { status := 204, body := none })
  else if !(strEndsWith request.pathname "/update") then
    ([], .ok { status := 404, body := some "Not Found." })
  else if (headerGet request "Authorization").isNone &&
      (paramGet request "token").isNone then
    ([], .ok { status := 404, body := some "Not Found." })
  else
    match parseBasicAuth request with
    | .error e => ([], .error e)
    | .ok creds =>
      let accountId := jsOr (paramGet request "account") env.ACCOUNT_ID
      let accessGroupId := jsOr (paramGet request "group") env.ACCESS_GROUP_ID
      match resolvedHostnames request, resolvedIps request with
      | some hostnames, some ips =>
        if hostnames.length == 0 || ips.length == 0 then
          ([], .error (.badRequest "You must specify both hostname(s) and IP address(es)"))
        else
          let t := handleIPs api hostnames creds.username accountId accessGroupId ips
          match t.2 with
          | .error e => (t.1, .error e)
          | .ok _ => (t.1, .ok { status := 200, body := some "good" })
      | _, _ =>
        ([], .error (.badRequest "You must specify both hostname(s) and IP address(es)"))

/-- The exported `fetch`: run handleRequest, mapping a thrown error to a
response with `err.status || 500` and the error message as plain text. -/
def fetchHandler (request : Request) (env : Env) (api : RawApi) :
    List ClientCall × Response :=
  match handleRequest request env api with
  | (t, .ok resp) => (t, resp)
  | (t, .error e) => (t, { status := errStatus e, body := some (errMessage e) })

/-! ## Trace observations -/

/-- Is this call a zone lookup for domain `d`? -/
def isFindZoneFor (d : String) : ClientCall → Bool
  | .findZone n => n == d
  | _ => false

/-- Number of zone lookups for domain `d` in a trace. -/
def countFindZone (t : List ClientCall) (d : String) : Nat :=
  (t.filter (isFindZoneFor d)).length

/-- Is this call an access-group update? -/
def isAccessCall : ClientCall → Bool
  | .updateAccessGroup _ _ _ => true
  | _ => false

/-- Number of access-group updates in a trace. -/
def countAccess (t : List ClientCall) : Nat :=
  (t.filter isAccessCall).length

/-- The zone a domain resolves to during one orchestration call that starts
from cache `zones`: the cached zone if present, else whatever findZone
returns. -/
def zoneAssign (api : RawApi) (zones : List (String × CloudflareZone))
    (d : String) : Option CloudflareZone :=
  match lookupZone zones d with
  | some z => some z
  | none =>
    match (CloudflareClient.findZone api d).2 with
    | .ok z => some z
    | .error _ => none

/-! ## List helpers -/

theorem takeWhile_all {α : Type} {p : α → Bool} :
    ∀ {xs : List α}, (∀ x ∈ xs, p x = true) → xs.takeWhile p = xs := by
  intro xs
  induction xs with
  | nil => intro _; rfl
  | cons a as ih =>
    intro h
    have ha : p a = true := h a (by simp)
    simp [List.takeWhile, ha, ih (fun x hx => h x (by simp [hx]))]

theorem dropWhile_all {α : Type} {p : α → Bool} :
    ∀ {xs : List α}, (∀ x ∈ xs, p x = true) → xs.dropWhile p = [] := by
  intro xs
  induction xs with
  | nil => intro _; rfl
  | cons a as ih =>
    intro h
    have ha : p a = true := h a (by simp)
    simp [List.dropWhile, ha, ih (fun x hx => h x (by simp [hx]))]

theorem takeWhile_append_cons {α : Type} {p : α → Bool} (xs : List α) (y : α)
    (ys : List α) (hx : ∀ x ∈ xs, p x = true) (hy : p y = false) :
    (xs ++ y :: ys).takeWhile p = xs := by
  induction xs with
  | nil => simp [List.takeWhile, hy]
  | cons a as ih =>
    have ha : p a = true := hx a (by simp)
    simp [List.takeWhile, ha, ih (fun x h2 => hx x (by simp [h2]))]

theorem dropWhile_append_cons {α : Type} {p : α → Bool} (xs : List α) (y : α)
    (ys : List α) (hx : ∀ x ∈ xs, p x = true) (hy : p y = false) :
    (xs ++ y :: ys).dropWhile p = y :: ys := by
  induction xs with
  | nil => simp [List.dropWhile, hy]
  | cons a as ih =>
    have ha : p a = true := hx a (by simp)
    simp [List.dropWhile, ha, ih (fun x h2 => hx x (by simp [h2]))]

theorem countFindZone_append (t1 t2 : List ClientCall) (d : String) :
    countFindZone (t1 ++ t2) d = countFindZone t1 d + countFindZone t2 d := by
  simp [countFindZone, List.filter_append]

theorem countAccess_append (t1 t2 : List ClientCall) :
    countAccess (t1 ++ t2) = countAccess t1 + countAccess t2 := by
  simp [countAccess, List.filter_append]

theorem lookupZone_append (zones : List (String × CloudflareZone))
    (dn : String) (z : CloudflareZone) (d : String) :
    lookupZone (zones ++ [(dn, z)]) d =
      match lookupZone zones d with
      | some w => some w
      | none => if dn == d then some z else none := by
  induction zones with
  | nil =>
    simp only [lookupZone, List.nil_append, List.find?]
    cases hd : (dn == d) <;> simp [List.find?, hd]
  | cons p ps ih =>
    simp only [lookupZone, List.cons_append, List.find?] at *
    cases hp : (p.1 == d) <;> simp [hp] at ih ⊢ <;> exact ih

theorem zoneAssign_append (api : RawApi)
    (zones : List (String × CloudflareZone)) (dn : String)
    (z : CloudflareZone) (d : String)
    (hz : lookupZone zones dn = none)
    (hfz : (CloudflareClient.findZone api dn).2 = .ok z) :
    zoneAssign api (zones ++ [(dn, z)]) d = zoneAssign api zones d := by
  unfold zoneAssign
  rw [lookupZone_append]
  cases hld : lookupZone zones d with
  | some w => simp
  | none =>
    by_cases hdd : dn = d
    · subst hdd
      rw [hz] at hld
      simp [hfz]
    · have : (dn == d) = false := by simp [hdd]
      simp [this]

/-! ## Structure of one loop step -/

theorem goStepRecord_spec (api : RawApi) (ip : String) (isIPV4 : Bool)
    (hostname : String) (zones : List (String × CloudflareZone))
    (tz : List ClientCall) (zone : CloudflareZone) (d : String) :
    countFindZone (goStepRecord api ip isIPV4 hostname zones tz zone).1 d
        = countFindZone tz d
    ∧ countAccess (goStepRecord api ip isIPV4 hostname zones tz zone).1
        = countAccess tz
    ∧ (goStepRecord api ip isIPV4 hostname zones tz zone).2.1 = zones := by
  unfold goStepRecord
  cases hfr : (CloudflareClient.findRecord api zone hostname isIPV4).2 with
  | error e =>
    simp [hfr, countFindZone, countAccess, isFindZoneFor, isAccessCall,
      List.filter_append]
  | ok record =>
    cases hur : (CloudflareClient.updateRecord api record ip).2 with
    | error e =>
      simp [hfr, hur, countFindZone, countAccess, isFindZoneFor, isAccessCall,
        List.filter_append]
    | ok u =>
      simp [hfr, hur, countFindZone, countAccess, isFindZoneFor, isAccessCall,
        List.filter_append]

theorem goStepRecord_trace (api : RawApi) (ip : String) (isIPV4 : Bool)
    (hostname : String) (zones : List (String × CloudflareZone))
    (tz : List ClientCall) (zone : CloudflareZone) :
    (goStepRecord api ip isIPV4 hostname zones tz zone).1
        = tz ++ [ClientCall.findRecord zone hostname isIPV4]
    ∨ ∃ record, (goStepRecord api ip isIPV4 hostname zones tz zone).1
        = tz ++ [ClientCall.findRecord zone hostname isIPV4,
                 ClientCall.updateRecord record ip] := by
  unfold goStepRecord
  cases hfr : (CloudflareClient.findRecord api zone hostname isIPV4).2 with
  | error e => simp [hfr]
  | ok record =>
    cases hur : (CloudflareClient.updateRecord api record ip).2 with
    | error e => simp only [hfr, hur]; exact Or.inr ⟨record, rfl⟩
    | ok u => simp only [hfr, hur]; exact Or.inr ⟨record, rfl⟩


/-! ## Memoization: each domain is looked up at most once -/

theorem go_countFindZone (api : RawApi) (ip : String) (isIPV4 : Bool)
    (name? : Option String) (d : String) :
    ∀ (hostnames : List String) (zones : List (String × CloudflareZone)),
      countFindZone (updateDNSRecordsGo api ip isIPV4 name? hostnames zones).1 d
        ≤ (if (lookupZone zones d).isSome then 0 else 1) := by
  intro hostnames
  induction hostnames with
  | nil => intro zones; simp [updateDNSRecordsGo, countFindZone]
  | cons h rest ih =>
    intro zones
    simp only [updateDNSRecordsGo, goStep]
    cases hz : lookupZone zones (domainNameFor name? h) with
    | some zone =>
      obtain ⟨hc, _, hcache⟩ :=
        goStepRecord_spec api ip isIPV4 h zones [] zone d
      cases hres : (goStepRecord api ip isIPV4 h zones [] zone).2.2 with
      | error e =>
        simp only [hres]
        have h0 : countFindZone (goStepRecord api ip isIPV4 h zones [] zone).1 d
            = 0 := by rw [hc]; rfl
        exact le_trans (Nat.le_of_eq h0) (Nat.zero_le _)
      | ok u =>
        simp only [hres]
        rw [countFindZone_append, hc, hcache]
        have h0 : countFindZone ([] : List ClientCall) d = 0 := rfl
        rw [h0]
        simpa using ih zones
    | none =>
      cases hfz : (CloudflareClient.findZone api (domainNameFor name? h)).2 with
      | error e =>
        simp only [hfz]
        by_cases hdd : domainNameFor name? h = d
        · subst hdd
          simp [countFindZone, isFindZoneFor, hz]
        · simp [countFindZone, isFindZoneFor, hdd]
      | ok z =>
        simp only [hfz]
        obtain ⟨hc, _, hcache⟩ := goStepRecord_spec api ip isIPV4 h
          (zones ++ [(domainNameFor name? h, z)])
          [ClientCall.findZone (domainNameFor name? h)] z d
        cases hres : (goStepRecord api ip isIPV4 h
            (zones ++ [(domainNameFor name? h, z)])
            [ClientCall.findZone (domainNameFor name? h)] z).2.2 with
        | error e =>
          simp only [hres]
          rw [hc]
          by_cases hdd : domainNameFor name? h = d
          · subst hdd
            simp [countFindZone, isFindZoneFor, hz]
          · simp [countFindZone, isFindZoneFor, hdd]
        | ok u =>
          simp only [hres]
          rw [countFindZone_append, hc, hcache]
          have hrest := ih (zones ++ [(domainNameFor name? h, z)])
          rw [lookupZone_append] at hrest
          by_cases hdd : domainNameFor name? h = d
          · subst hdd
            rw [hz] at hrest
            simp at hrest
            have h1 : countFindZone
                [ClientCall.findZone (domainNameFor name? h)]
                (domainNameFor name? h) = 1 := by
              simp [countFindZone, isFindZoneFor]
            rw [h1, hz]
            simp [hrest]
          · have h0 : countFindZone
                [ClientCall.findZone (domainNameFor name? h)] d = 0 := by
              simp [countFindZone, isFindZoneFor, hdd]
            rw [h0]
            have hbd : (domainNameFor name? h == d) = false := by simp [hdd]
            rw [hbd] at hrest
            cases hld : lookupZone zones d with
            | some w =>
              rw [hld] at hrest
              simpa using hrest
            | none =>
              rw [hld] at hrest
              simpa using hrest

/-- The cache is unchanged by the record phase of a step. -/
theorem goStepRecord_cache (api : RawApi) (ip : String) (isIPV4 : Bool)
    (hostname : String) (zones : List (String × CloudflareZone))
    (tz : List ClientCall) (zone : CloudflareZone) :
    (goStepRecord api ip isIPV4 hostname zones tz zone).2.1 = zones :=
  (goStepRecord_spec api ip isIPV4 hostname zones tz zone "").2.2

/-- Every record lookup in a run uses the zone assigned to its hostname's
domain by the starting cache (or, failing that, by findZone). -/
theorem go_findRecord_zone (api : RawApi) (ip : String) (isIPV4 : Bool)
    (name? : Option String) :
    ∀ (hostnames : List String) (zones : List (String × CloudflareZone))
      (z : CloudflareZone) (hn : String) (b : Bool),
      ClientCall.findRecord z hn b ∈
        (updateDNSRecordsGo api ip isIPV4 name? hostnames zones).1 →
      zoneAssign api zones (domainNameFor name? hn) = some z := by
  intro hostnames
  induction hostnames with
  | nil => intro zones z hn b hmem; simp [updateDNSRecordsGo] at hmem
  | cons h rest ih =>
    intro zones z hn b hmem
    simp only [updateDNSRecordsGo, goStep] at hmem
    cases hz : lookupZone zones (domainNameFor name? h) with
    | some zone =>
      simp only [hz] at hmem
      cases hres : (goStepRecord api ip isIPV4 h zones [] zone).2.2 with
      | error e =>
        simp only [hres] at hmem
        rcases goStepRecord_trace api ip isIPV4 h zones [] zone with
          htr | ⟨rec, htr⟩ <;> rw [htr] at hmem <;> simp at hmem <;>
          obtain ⟨rfl, rfl, rfl⟩ := hmem <;> simp [zoneAssign, hz]
      | ok u =>
        simp only [hres] at hmem
        rw [List.mem_append] at hmem
        rcases hmem with hmem | hmem
        · rcases goStepRecord_trace api ip isIPV4 h zones [] zone with
            htr | ⟨rec, htr⟩ <;> rw [htr] at hmem <;> simp at hmem <;>
            obtain ⟨rfl, rfl, rfl⟩ := hmem <;> simp [zoneAssign, hz]
        · rw [goStepRecord_cache] at hmem
          exact ih zones z hn b hmem
    | none =>
      simp only [hz] at hmem
      cases hfz : (CloudflareClient.findZone api (domainNameFor name? h)).2 with
      | error e => simp [hfz] at hmem
      | ok zz =>
        simp only [hfz] at hmem
        cases hres : (goStepRecord api ip isIPV4 h
            (zones ++ [(domainNameFor name? h, zz)])
            [ClientCall.findZone (domainNameFor name? h)] zz).2.2 with
        | error e =>
          simp only [hres] at hmem
          rcases goStepRecord_trace api ip isIPV4 h
              (zones ++ [(domainNameFor name? h, zz)])
              [ClientCall.findZone (domainNameFor name? h)] zz with
            htr | ⟨rec, htr⟩ <;> rw [htr] at hmem <;> simp at hmem <;>
            obtain ⟨rfl, rfl, rfl⟩ := hmem <;> simp [zoneAssign, hz, hfz]
        | ok u =>
          simp only [hres] at hmem
          rw [List.mem_append] at hmem
          rcases hmem with hmem | hmem
          · rcases goStepRecord_trace api ip isIPV4 h
                (zones ++ [(domainNameFor name? h, zz)])
                [ClientCall.findZone (domainNameFor name? h)] zz with
              htr | ⟨rec, htr⟩ <;> rw [htr] at hmem <;> simp at hmem <;>
              obtain ⟨rfl, rfl, rfl⟩ := hmem <;> simp [zoneAssign, hz, hfz]
          · rw [goStepRecord_cache] at hmem
            have := ih (zones ++ [(domainNameFor name? h, zz)]) z hn b hmem
            rwa [zoneAssign_append api zones (domainNameFor name? h) zz
              (domainNameFor name? hn) hz hfz] at this

/-- The first hostname of a run from the empty cache does incur a zone
lookup for its domain. -/
theorem go_countFindZone_head (api : RawApi) (ip : String) (isIPV4 : Bool)
    (name? : Option String) (h : String) (rest : List String) :
    1 ≤ countFindZone
        (updateDNSRecordsGo api ip isIPV4 name? (h :: rest) []).1
        (domainNameFor name? h) := by
  have hz : lookupZone [] (domainNameFor name? h) = none := rfl
  simp only [updateDNSRecordsGo, goStep, hz]
  cases hfz : (CloudflareClient.findZone api (domainNameFor name? h)).2 with
  | error e => simp [countFindZone, isFindZoneFor]
  | ok z =>
    obtain ⟨hc, _, _⟩ := goStepRecord_spec api ip isIPV4 h
      ([] ++ [(domainNameFor name? h, z)])
      [ClientCall.findZone (domainNameFor name? h)] z (domainNameFor name? h)
    cases hres : (goStepRecord api ip isIPV4 h
        ([] ++ [(domainNameFor name? h, z)])
        [ClientCall.findZone (domainNameFor name? h)] z).2.2 with
    | error e =>
      simp only [hres]
      rw [hc]
      simp [countFindZone, isFindZoneFor]
    | ok u =>
      simp only [hres]
      rw [countFindZone_append, hc]
      have h1 : countFindZone [ClientCall.findZone (domainNameFor name? h)]
          (domainNameFor name? h) = 1 := by simp [countFindZone, isFindZoneFor]
      rw [h1]
      omega

/-- The DNS loop issues no access-group calls. -/
theorem go_countAccess (api : RawApi) (ip : String) (isIPV4 : Bool)
    (name? : Option String) :
    ∀ (hostnames : List String) (zones : List (String × CloudflareZone)),
      countAccess (updateDNSRecordsGo api ip isIPV4 name? hostnames zones).1
        = 0 := by
  intro hostnames
  induction hostnames with
  | nil => intro zones; simp [updateDNSRecordsGo, countAccess]
  | cons h rest ih =>
    intro zones
    simp only [updateDNSRecordsGo, goStep]
    cases hz : lookupZone zones (domainNameFor name? h) with
    | some zone =>
      obtain ⟨_, ha, hcache⟩ := goStepRecord_spec api ip isIPV4 h zones [] zone ""
      cases hres : (goStepRecord api ip isIPV4 h zones [] zone).2.2 with
      | error e => simp only [hres]; rw [ha]; rfl
      | ok u =>
        simp only [hres]
        rw [countAccess_append, ha, hcache, ih zones]
        rfl
    | none =>
      cases hfz : (CloudflareClient.findZone api (domainNameFor name? h)).2 with
      | error e => simp [hfz, countAccess, isAccessCall]
      | ok z =>
        simp only [hfz]
        obtain ⟨_, ha, hcache⟩ := goStepRecord_spec api ip isIPV4 h
          (zones ++ [(domainNameFor name? h, z)])
          [ClientCall.findZone (domainNameFor name? h)] z ""
        cases hres : (goStepRecord api ip isIPV4 h
            (zones ++ [(domainNameFor name? h, z)])
            [ClientCall.findZone (domainNameFor name? h)] z).2.2 with
        | error e =>
          simp only [hres]
          rw [ha]
          simp [countAccess, isAccessCall]
        | ok u =>
          simp only [hres]
          rw [countAccess_append, ha, hcache, ih]
          simp [countAccess, isAccessCall]

/-- Sequential composition of the hostname loop: the loop over `xs ++ ys`
runs `xs` first and continues into `ys` only when `xs` succeeded. -/
theorem go_append (api : RawApi) (ip : String) (isIPV4 : Bool)
    (name? : Option String) :
    ∀ (xs ys : List String) (zones : List (String × CloudflareZone)),
      updateDNSRecordsGo api ip isIPV4 name? (xs ++ ys) zones =
        (let s := updateDNSRecordsGo api ip isIPV4 name? xs zones
         match s.2.2 with
         | .error e => (s.1, s.2.1, .error e)
         | .ok _ =>
           let t := updateDNSRecordsGo api ip isIPV4 name? ys s.2.1
           (s.1 ++ t.1, t.2.1, t.2.2)) := by
  intro xs
  induction xs with
  | nil => intro ys zones; simp [updateDNSRecordsGo]
  | cons x xs ih =>
    intro ys zones
    simp only [List.cons_append, updateDNSRecordsGo]
    cases hs : (goStep api ip isIPV4 name? x zones).2.2 with
    | error e => simp [hs]
    | ok u =>
      simp only [hs, List.append_eq]
      rw [ih ys (goStep api ip isIPV4 name? x zones).2.1]
      cases hxs : (updateDNSRecordsGo api ip isIPV4 name? xs
          (goStep api ip isIPV4 name? x zones).2.1).2.2 <;>
        simp [hxs, List.append_assoc]

/-- When its domain is not cached, the trace of a nonempty run starts with
the zone lookup for the first hostname's domain. -/
theorem go_head (api : RawApi) (ip : String) (isIPV4 : Bool)
    (name? : Option String) (h : String) (rest : List String)
    (zones : List (String × CloudflareZone))
    (hz : lookupZone zones (domainNameFor name? h) = none) :
    ((updateDNSRecordsGo api ip isIPV4 name? (h :: rest) zones).1).head? =
      some (ClientCall.findZone (domainNameFor name? h)) := by
  simp only [updateDNSRecordsGo, goStep, hz]
  cases hfz : (CloudflareClient.findZone api (domainNameFor name? h)).2 with
  | error e => simp
  | ok z =>
    rcases goStepRecord_trace api ip isIPV4 h
        (zones ++ [(domainNameFor name? h, z)])
        [ClientCall.findZone (domainNameFor name? h)] z with
      htr | ⟨rec, htr⟩ <;>
    cases hres : (goStepRecord api ip isIPV4 h
        (zones ++ [(domainNameFor name? h, z)])
        [ClientCall.findZone (domainNameFor name? h)] z).2.2 <;>
    simp [hres, htr]

/-! ## Request-level plumbing lemmas -/

theorem not_favicon (p : String) (hp : strEndsWith p "/update" = true) :
    (p == "/favicon.ico" || p == "/robots.txt") = false := by
  have h1 : p ≠ "/favicon.ico" := by
    intro hh; subst hh; exact absurd hp (by decide)
  have h2 : p ≠ "/robots.txt" := by
    intro hh; subst hh; exact absurd hp (by decide)
  simp [h1, h2]

/-- A request that routes to the main update path runs the per-ip loop and
maps its outcome to the response. -/
theorem handleRequest_run (request : Request) (env : Env) (api : RawApi)
    (creds : AuthCredentials) (hostnames ips : List String)
    (hpath : strEndsWith request.pathname "/update" = true)
    (hauth : ((headerGet request "Authorization").isNone &&
      (paramGet request "token").isNone) = false)
    (hparse : parseBasicAuth request = .ok creds)
    (hh : resolvedHostnames request = some hostnames)
    (hi : resolvedIps request = some ips)
    (hhne : hostnames ≠ []) (hine : ips ≠ []) :
    handleRequest request env api =
      (let t := handleIPs api hostnames creds.username
          (jsOr (paramGet request "account") env.ACCOUNT_ID)
          (jsOr (paramGet request "group") env.ACCESS_GROUP_ID) ips
       match t.2 with
       | .error e => (t.1, .error e)
       | .ok _ => (t.1, .ok { status := 200, body := some "good" })) := by
  have hl1 : (hostnames.length == 0) = false := by
    cases hostnames with
    | nil => exact absurd rfl hhne
    | cons a l => rfl
  have hl2 : (ips.length == 0) = false := by
    cases ips with
    | nil => exact absurd rfl hine
    | cons a l => rfl
  unfold handleRequest
  rw [not_favicon request.pathname hpath, hpath]
  simp only [Bool.not_true, Bool.false_eq_true, if_false, hauth, hparse,
    hh, hi, hl1, hl2, Bool.or_self]

/-- The trace of a nonempty ip loop extends the dns trace of its first ip. -/
theorem handleIPs_cons_trace (api : RawApi) (hostnames : List String)
    (name? acct grp : Option String) (ip : String) (rest : List String) :
    ∃ t2, (handleIPs api hostnames name? acct grp (ip :: rest)).1 =
      (updateDNSRecords api hostnames (jsTrim ip) name?).1 ++ t2 := by
  simp only [handleIPs]
  cases hd : (updateDNSRecords api hostnames (jsTrim ip) name?).2 with
  | error e => exact ⟨[], by simp⟩
  | ok u =>
    by_cases hj : (jsTruthy acct && jsTruthy grp) = true
    · simp only [hj, if_true]
      cases hag : (CloudflareClient.updateAccessGroup api (acct.getD "")
          (grp.getD "") ip).2 with
      | error e => exact ⟨_, rfl⟩
      | ok v => exact ⟨_, rfl⟩
    · simp only [Bool.not_eq_true] at hj
      simp only [hj, Bool.false_eq_true, if_false]
      exact ⟨_, rfl⟩

theorem head?_append_left {α : Type} (l l2 : List α) (x : α)
    (h : l.head? = some x) : (l ++ l2).head? = some x := by
  cases l with
  | nil => simp at h
  | cons a t => simpa using h

/-! ## Concrete fixtures used by witnesses and counterexamples -/

/-- A provider where every zone exists and records exist for the two demo
hostnames. -/
def demoApi : RawApi where
  zonesList := fun name => .ok [{ id := "zone-" ++ name, name := name }]
  dnsRecordsList := fun _ rtype =>
    .ok [{ id := "rec1", name := "a.example.com", rtype := rtype,
           content := "9.9.9.9", proxied := false, ttl := 300 },
         { id := "rec2", name := "b.example.com", rtype := rtype,
           content := "9.9.9.9", proxied := false, ttl := 300 }]
  dnsRecordsEdit := fun _ _ => .ok ()
  accessGroupPut := fun _ _ _ => .ok ()

/-- A provider with no zones at all: every findZone is a NotFound. -/
def notFoundApi : RawApi where
  zonesList := fun _ => .ok []
  dnsRecordsList := fun _ _ => .ok []
  dnsRecordsEdit := fun _ _ => .ok ()
  accessGroupPut := fun _ _ _ => .ok ()

/-- A provider where editing a record to 5.6.7.8 fails (and the thrown
error has no usable status). -/
def failSecondApi : RawApi where
  zonesList := fun name => .ok [{ id := "zone-" ++ name, name := name }]
  dnsRecordsList := fun _ rtype =>
    .ok [{ id := "rec1", name := "a.example.com", rtype := rtype,
           content := "9.9.9.9", proxied := false, ttl := 300 }]
  dnsRecordsEdit := fun _ p =>
    if p.content == "5.6.7.8" then .error { message := "boom", status := 0 }
    else .ok ()
  accessGroupPut := fun _ _ _ => .ok ()

def testEnv : Env := { DDNS_TOKEN := "TOKEN" }

/-! ## Claims -/

/-- C6: every request whose path is exactly /favicon.ico or /robots.txt
gets a 204 response with an empty body and no provider call, regardless of
scheme, parameters or headers. -/
theorem claim_c6 (request : Request) (env : Env) (api : RawApi)
    (hp : request.pathname = "/favicon.ico" ∨ request.pathname = "/robots.txt") :
    fetchHandler request env api = ([], { status := 204, body := none }) := by
  have hc : (request.pathname == "/favicon.ico" ||
      request.pathname == "/robots.txt") = true := by
    rcases hp with hp | hp <;> simp [hp]
  unfold fetchHandler handleRequest
  rw [hc]
  rfl

/-- C6 witness: an http request for /favicon.ico with unrelated parameters
and headers still gets the empty 204. -/
theorem claim_c6_witness :
    fetchHandler
      { scheme := "http", pathname := "/favicon.ico",
        searchParams := [("hostname", "x"), ("token", "T")],
        headers := [("X-Weird", "1")] }
      testEnv demoApi = ([], { status := 204, body := none }) :=
  claim_c6 _ testEnv demoApi (Or.inl rfl)

/-- C5: an authenticated request to a path ending in /update whose
hostname sources or ip sources all resolve to nothing gets a 400 whose
plain-text reason names both required fields, and no provider call is
issued. -/
theorem claim_c5 (request : Request) (env : Env) (api : RawApi)
    (creds : AuthCredentials)
    (hpath : strEndsWith request.pathname "/update" = true)
    (hauth : ((headerGet request "Authorization").isNone &&
      (paramGet request "token").isNone) = false)
    (hparse : parseBasicAuth request = .ok creds)
    (hempty : resolvedHostnames request = none ∨ resolvedIps request = none) :
    fetchHandler request env api =
      ([], { status := 400,
             body := some "You must specify both hostname(s) and IP address(es)" }) := by
  unfold fetchHandler handleRequest
  rw [not_favicon request.pathname hpath, hpath]
  simp only [Bool.not_true, Bool.false_eq_true, if_false, hauth, hparse]
  rcases hempty with he | he <;> rw [he]
  · rfl
  · cases hh : resolvedHostnames request <;> rfl

/-- C5 witness: token-authenticated request with no hostname source. -/
theorem claim_c5_witness :
    fetchHandler
      { scheme := "https", pathname := "/update",
        searchParams := [("token", "T"), ("ip", "1.2.3.4")], headers := [] }
      testEnv demoApi =
      ([], { status := 400,
             body := some "You must specify both hostname(s) and IP address(es)" }) :=
  claim_c5 _ testEnv demoApi { username := none, password := none }
    (by decide) (by decide) (by decide) (Or.inl (by decide))

/-- C4 counterexample: a request to /update with an Authorization header
whose payload is not valid base64 is answered with status 500, not 400:
the atob failure is not a BadRequestException, and the thrown value has no
status for the top-level handler to use. -/
theorem claim_c4_counterexample :
    (fetchHandler
        { scheme := "https", pathname := "/update", searchParams := [],
          headers := [("Authorization", "Basic %%%%")] }
        testEnv demoApi).2.status = 500 ∧
    ¬ (fetchHandler
        { scheme := "https", pathname := "/update", searchParams := [],
          headers := [("Authorization", "Basic %%%%")] }
        testEnv demoApi).2.status = 400 := by
  constructor
  · decide
  · decide

/-- C4 (amended): for a request to a path ending in /update carrying an
Authorization header whose payload does decode but the decode has no colon
or contains a control byte (0x00-0x1F or 0x7F), the response is 400 with
reason "Invalid authorization value." and no provider call; a payload that
is not validly base64-decodable instead yields status 500 (the uncaught
decode exception). -/
theorem claim_c4 (request : Request) (env : Env) (api : RawApi)
    (a d : String)
    (hpath : strEndsWith request.pathname "/update" = true)
    (hhdr : headerGet request "Authorization" = some a)
    (hane : a ≠ "")
    (hdec : atob? ((jsSplit a ' ').getD 1 "undefined") = some d)
    (hbad : d.toList.contains ':' = false ∨
      d.toList.any (fun c => c.toNat ≤ 0x1F || c.toNat == 0x7F) = true) :
    fetchHandler request env api =
      ([], { status := 400, body := some "Invalid authorization value." }) := by
  have hauth : ((headerGet request "Authorization").isNone &&
      (paramGet request "token").isNone) = false := by
    rw [hhdr]; rfl
  have hane2 : (a == "") = false := by simp [hane]
  have hparse : parseBasicAuth request =
      .error (.badRequest "Invalid authorization value.") := by
    unfold parseBasicAuth
    rw [hhdr]
    simp only [hane2, Bool.false_eq_true, if_false, hdec]
    have hcond : (!(d.toList.contains ':') ||
        d.toList.any (fun c => c.toNat ≤ 0x1F || c.toNat == 0x7F)) = true := by
      rcases hbad with hb | hb
      · rw [hb]; rfl
      · rw [hb, Bool.or_true]
    rw [hcond]
    rfl
  unfold fetchHandler handleRequest
  rw [not_favicon request.pathname hpath, hpath]
  simp only [Bool.not_true, Bool.false_eq_true, if_false, hauth, hparse]
  rfl

/-- C4 witness: "Basic YWJj" decodes to "abc", which has no colon. -/
theorem claim_c4_witness :
    fetchHandler
      { scheme := "https", pathname := "/update", searchParams := [],
        headers := [("Authorization", "Basic YWJj")] }
      testEnv demoApi =
      ([], { status := 400, body := some "Invalid authorization value." }) :=
  claim_c4 _ testEnv demoApi "Basic YWJj" "abc" (by decide) rfl
    (by decide) (by decide) (Or.inl (by decide))

/-- When a hostname decomposes as `pre ++ l1 ++ "." ++ l2` with `l1`, `l2`
nonempty dot-free labels, `pre` empty or ending in a dot and free of line
terminators, the replace yields exactly the last two labels. -/
theorem replaceLastTwoLabels_spec (hostname : String) (pre l1 l2 : List Char)
    (hlist : hostname.toList = pre ++ l1 ++ '.' :: l2)
    (hl1ne : l1 ≠ []) (hl2ne : l2 ≠ [])
    (hl1d : ∀ c ∈ l1, c ≠ '.') (hl2d : ∀ c ∈ l2, c ≠ '.')
    (hplt : ∀ c ∈ pre, isLineTerm c = false)
    (hpdot : pre = [] ∨ ∃ pre0, pre = pre0 ++ ['.']) :
    replaceLastTwoLabels hostname = String.mk (l1 ++ '.' :: l2) := by
  have hrev : hostname.toList.reverse =
      l2.reverse ++ '.' :: (l1.reverse ++ pre.reverse) := by
    rw [hlist]
    simp [List.reverse_append]
  have hl2r : ∀ c ∈ l2.reverse, (c != '.') = true := by
    intro c hc
    rw [List.mem_reverse] at hc
    simpa using hl2d c hc
  have hl1r : ∀ c ∈ l1.reverse, (c != '.') = true := by
    intro c hc
    rw [List.mem_reverse] at hc
    simpa using hl1d c hc
  have hdot : (('.' : Char) != '.') = false := by decide
  have htw : hostname.toList.reverse.takeWhile (fun c => c != '.')
      = l2.reverse := by
    rw [hrev]
    exact takeWhile_append_cons l2.reverse '.' (l1.reverse ++ pre.reverse)
      hl2r hdot
  have hdw : hostname.toList.reverse.dropWhile (fun c => c != '.')
      = '.' :: (l1.reverse ++ pre.reverse) := by
    rw [hrev]
    exact dropWhile_append_cons l2.reverse '.' (l1.reverse ++ pre.reverse)
      hl2r hdot
  have htw1 : (l1.reverse ++ pre.reverse).takeWhile (fun c => c != '.')
      = l1.reverse := by
    rcases hpdot with hp | ⟨pre0, hp⟩
    · subst hp
      simpa using takeWhile_all hl1r
    · subst hp
      rw [List.reverse_append]
      simpa using takeWhile_append_cons l1.reverse '.' pre0.reverse hl1r hdot
  have hl1e : l1.reverse.isEmpty = false := by
    cases hc : l1.reverse with
    | nil => exact absurd (by simpa using hc) hl1ne
    | cons a t => rfl
  have hl2e : l2.reverse.isEmpty = false := by
    cases hc : l2.reverse with
    | nil => exact absurd (by simpa using hc) hl2ne
    | cons a t => rfl
  have hkeep : ((l1.reverse ++ pre.reverse).drop l1.reverse.length).dropWhile
      (fun c => !(isLineTerm c)) = [] := by
    rw [List.drop_left]
    apply dropWhile_all
    intro c hc
    rw [List.mem_reverse] at hc
    simp [hplt c hc]
  unfold replaceLastTwoLabels
  dsimp only
  rw [htw, hdw]
  simp only [htw1, hl1e, hl2e, Bool.or_self, Bool.false_eq_true, if_false,
    hkeep, List.reverse_nil, List.nil_append, List.reverse_reverse]

/-- C2: the orchestrator's domain choice: when an authenticated username is
supplied (nonempty) and the hostname ends with it, the username is used
verbatim as the domain; otherwise the domain is the last two dot-separated
labels of the hostname (whenever the hostname has such a well-formed
two-label tail). -/
theorem claim_c2 :
    (∀ (u hostname : String), u ≠ "" → strEndsWith hostname u = true →
      domainNameFor (some u) hostname = u)
    ∧ (∀ (name? : Option String) (hostname : String) (pre l1 l2 : List Char),
        hostname.toList = pre ++ l1 ++ '.' :: l2 →
        l1 ≠ [] → l2 ≠ [] →
        (∀ c ∈ l1, c ≠ '.') → (∀ c ∈ l2, c ≠ '.') →
        (∀ c ∈ pre, isLineTerm c = false) →
        (pre = [] ∨ ∃ pre0, pre = pre0 ++ ['.']) →
        (name? = none ∨ ∃ u, name? = some u ∧
          (u = "" ∨ strEndsWith hostname u = false)) →
        domainNameFor name? hostname = String.mk (l1 ++ '.' :: l2)) := by
  constructor
  · intro u hostname hu hends
    have hu2 : (u != "") = true := by simpa using hu
    simp [domainNameFor, hu2, hends]
  · intro name? hostname pre l1 l2 hlist hl1ne hl2ne hl1d hl2d hplt hpdot hname
    have hrepl := replaceLastTwoLabels_spec hostname pre l1 l2 hlist hl1ne
      hl2ne hl1d hl2d hplt hpdot
    rcases hname with hn | ⟨u, hn, hu⟩
    · subst hn
      simpa [domainNameFor] using hrepl
    · subst hn
      rcases hu with hu | hu
      · subst hu
        simpa [domainNameFor] using hrepl
      · simpa [domainNameFor, hu] using hrepl

/-- C2 witness: the spec's two examples, at concrete inputs. -/
theorem claim_c2_witness :
    domainNameFor (some "mydomain.net") "host.mydomain.net" = "mydomain.net"
    ∧ domainNameFor (some "other.org") "a.example.com" = "example.com" :=
  ⟨claim_c2.1 "mydomain.net" "host.mydomain.net" (by decide) (by decide),
   claim_c2.2 (some "other.org") "a.example.com" ['a', '.']
     ['e', 'x', 'a', 'm', 'p', 'l', 'e'] ['c', 'o', 'm'] (by decide)
     (by decide) (by decide) (by decide) (by decide) (by decide)
     (Or.inr ⟨['a'], by decide⟩)
     (Or.inr ⟨"other.org", rfl, Or.inr (by decide)⟩)⟩

/-- C1: in one orchestration call the zone cache memoizes lookups keyed by
domain name: no domain is looked up more than once, a run whose first
hostname maps to domain `d` looks `d` up exactly once across the whole
call, and any two record lookups for hostnames resolving to the same
domain use the same returned zone. -/
theorem claim_c1 (api : RawApi) (hostnames : List String) (ip : String)
    (name? : Option String) (d : String) :
    countFindZone (updateDNSRecords api hostnames ip name?).1 d ≤ 1
    ∧ (∀ h rest, hostnames = h :: rest → domainNameFor name? h = d →
        countFindZone (updateDNSRecords api hostnames ip name?).1 d = 1)
    ∧ (∀ z1 h1 b1 z2 h2 b2,
        ClientCall.findRecord z1 h1 b1 ∈ (updateDNSRecords api hostnames ip name?).1 →
        ClientCall.findRecord z2 h2 b2 ∈ (updateDNSRecords api hostnames ip name?).1 →
        domainNameFor name? h1 = domainNameFor name? h2 → z1 = z2) := by
  have hb : countFindZone
      (updateDNSRecordsGo api ip (ip.toList.contains '.') name? hostnames []).1 d
      ≤ 1 := by
    simpa using
      go_countFindZone api ip (ip.toList.contains '.') name? d hostnames []
  refine ⟨hb, ?_, ?_⟩
  · intro h rest heq hdom
    subst heq
    refine le_antisymm hb ?_
    have := go_countFindZone_head api ip (ip.toList.contains '.') name? h rest
    rwa [hdom] at this
  · intro z1 h1 b1 z2 h2 b2 hm1 hm2 hdom
    have e1 := go_findRecord_zone api ip (ip.toList.contains '.') name?
      hostnames [] z1 h1 b1 hm1
    have e2 := go_findRecord_zone api ip (ip.toList.contains '.') name?
      hostnames [] z2 h2 b2 hm2
    rw [hdom] at e1
    rw [e1] at e2
    exact Option.some.inj e2

/-- C1 witness: the spec's two-hostname example incurs exactly one zone
lookup for example.com. -/
theorem claim_c1_witness :
    countFindZone
      (updateDNSRecords demoApi ["a.example.com", "b.example.com"]
        "1.2.3.4" none).1 "example.com" = 1 :=
  (claim_c1 demoApi ["a.example.com", "b.example.com"] "1.2.3.4" none
    "example.com").2.1 "a.example.com" ["b.example.com"] rfl (by decide)

/-- C3: the hostname loop is strictly sequential and aborts on the first
failure: if the hostnames before position k succeed and the provider call
chain for hostname k fails, the whole call's trace is exactly the calls
for the prefix plus the calls for hostname k, with no call of any kind for
the hostnames after k, and the error propagates. -/
theorem claim_c3 (api : RawApi) (ip : String) (name? : Option String)
    (pre : List String) (hk : String) (post : List String) (e : WorkerError)
    (h1 : (updateDNSRecordsGo api ip (ip.toList.contains '.') name?
        pre []).2.2 = .ok ())
    (h2 : (updateDNSRecordsGo api ip (ip.toList.contains '.') name? [hk]
        (updateDNSRecordsGo api ip (ip.toList.contains '.') name?
          pre []).2.1).2.2 = .error e) :
    updateDNSRecords api (pre ++ hk :: post) ip name? =
      ((updateDNSRecordsGo api ip (ip.toList.contains '.') name? pre []).1 ++
       (updateDNSRecordsGo api ip (ip.toList.contains '.') name? [hk]
          (updateDNSRecordsGo api ip (ip.toList.contains '.') name?
            pre []).2.1).1,
       .error e) := by
  unfold updateDNSRecords
  dsimp only
  rw [go_append api ip (ip.toList.contains '.') name? pre (hk :: post) []]
  dsimp only
  simp only [h1]
  cases hs : (goStep api ip (ip.toList.contains '.') name? hk
      ((updateDNSRecordsGo api ip (ip.toList.contains '.') name?
        pre []).2.1)).2.2 with
  | ok u =>
    exfalso
    simp only [updateDNSRecordsGo, hs] at h2
    exact Except.noConfusion h2
  | error e2 =>
    have he : e2 = e := by
      simp only [updateDNSRecordsGo, hs] at h2
      exact Except.error.inj h2
    subst he
    simp only [updateDNSRecordsGo, hs]

/-- C3 witness: the zone of the first of two hostnames is not found, so
the only provider call of the whole run is that single zone lookup; the
second hostname is never looked up or updated. -/
theorem claim_c3_witness :
    updateDNSRecords notFoundApi ["a.example.com", "b.example.com"]
      "1.2.3.4" none =
      ([ClientCall.findZone "example.com"],
       .error (.api "Failed to find zone \x27example.com\x27" 404)) :=
  (claim_c3 notFoundApi "1.2.3.4" none [] "a.example.com" ["b.example.com"]
    (.api "Failed to find zone \x27example.com\x27" 404) rfl
    (by decide)).trans (by decide)

/-- C7: per ip of the loop, an access-group update is issued if and only if
both identifiers are truthy and the DNS loop for that ip succeeded; the DNS
phase itself never issues access calls, the issued PUT body replaces the
include list with the single entry ip/32, and exactly one such client call
is recorded for the ip. -/
theorem claim_c7 (api : RawApi) (hostnames : List String)
    (name? acct grp : Option String) (ip : String) (rest : List String)
    (t : List ClientCall) (r : Except WorkerError Unit)
    (hdns : updateDNSRecords api hostnames (jsTrim ip) name? = (t, r)) :
    countAccess t = 0
    ∧ (∀ a g, acct = some a → grp = some g → a ≠ "" → g ≠ "" → r = .ok () →
        (CloudflareClient.updateAccessGroup api a g ip).1 =
          [RawCall.accessGroupPut a g
            { name := "Local IP Address", includeIps := [ip ++ "/32"] }]
        ∧ ∃ t2 r2, handleIPs api hostnames name? acct grp (ip :: rest) =
            (t ++ ClientCall.updateAccessGroup a g ip :: t2, r2))
    ∧ ((jsTruthy acct && jsTruthy grp) = false → r = .ok () →
        handleIPs api hostnames name? acct grp (ip :: rest) =
          (t ++ (handleIPs api hostnames name? acct grp rest).1,
           (handleIPs api hostnames name? acct grp rest).2))
    ∧ (∀ e, r = .error e →
        handleIPs api hostnames name? acct grp (ip :: rest) = (t, .error e)) := by
  have ht : countAccess t = 0 := by
    have hfst : (updateDNSRecords api hostnames (jsTrim ip) name?).1 = t := by
      rw [hdns]
    rw [← hfst]
    exact go_countAccess api (jsTrim ip) ((jsTrim ip).toList.contains '.')
      name? hostnames []
  refine ⟨ht, ?_, ?_, ?_⟩
  · intro a g ha hg hane hgne hr
    subst ha
    subst hg
    refine ⟨rfl, ?_⟩
    have hja : (jsTruthy (some a) && jsTruthy (some g)) = true := by
      simp [jsTruthy, hane, hgne]
    simp only [handleIPs, hdns, hr, hja, if_true, Option.getD_some]
    cases hag : (CloudflareClient.updateAccessGroup api a g ip).2 with
    | error e2 => exact ⟨[], .error e2, rfl⟩
    | ok v =>
      exact ⟨(handleIPs api hostnames name? (some a) (some g) rest).1, _, rfl⟩
  · intro hj hr
    simp only [handleIPs, hdns, hr, hj, Bool.false_eq_true, if_false]
  · intro e hr
    simp only [handleIPs, hdns, hr]

/-- C7 witness: one hostname, one ip, both identifiers present: the DNS
trace holds no access call, and the issued PUT body allow-lists exactly
1.2.3.4/32. -/
theorem claim_c7_witness :
    countAccess
      [ClientCall.findZone "example.com",
       ClientCall.findRecord { id := "zone-example.com", name := "example.com" }
         "a.example.com" true,
       ClientCall.updateRecord
         { id := "rec1", zone_id := "zone-example.com", rtype := "A",
           name := "a.example.com", content := "9.9.9.9", proxied := false,
           ttl := 300 } "1.2.3.4"] = 0
    ∧ (CloudflareClient.updateAccessGroup demoApi "acc" "grp" "1.2.3.4").1 =
        [RawCall.accessGroupPut "acc" "grp"
          { name := "Local IP Address", includeIps := ["1.2.3.4/32"] }] := by
  have hdns : updateDNSRecords demoApi ["a.example.com"] (jsTrim "1.2.3.4")
      none =
      ([ClientCall.findZone "example.com",
        ClientCall.findRecord { id := "zone-example.com", name := "example.com" }
          "a.example.com" true,
        ClientCall.updateRecord
          { id := "rec1", zone_id := "zone-example.com", rtype := "A",
            name := "a.example.com", content := "9.9.9.9", proxied := false,
            ttl := 300 } "1.2.3.4"], .ok ()) := by decide
  have h := claim_c7 demoApi ["a.example.com"] none (some "acc") (some "grp")
    "1.2.3.4" [] _ _ hdns
  exact ⟨h.1, (h.2.1 "acc" "grp" rfl rfl (by decide) (by decide) rfl).1⟩

/-- C8: updateRecord issues exactly one edit call whose parameters carry
the record's existing name, TTL and proxied flag unchanged and set content
to the new value (no short-circuit on equal content); its successful
result is the record with only content replaced; and the orchestrator
issues the update for every found record. -/
theorem claim_c8 (api : RawApi) (record : CloudflareDnsRecord)
    (value : String) :
    (CloudflareClient.updateRecord api record value).1 =
      [RawCall.dnsRecordsEdit record.id
        { zone_id := record.zone_id, rtype := record.rtype,
          name := record.name, content := value, ttl := record.ttl,
          proxied := record.proxied }]
    ∧ (∀ r2, (CloudflareClient.updateRecord api record value).2 = .ok r2 →
        r2 = { record with content := value })
    ∧ (∀ (ip : String) (isIPV4 : Bool) (name? : Option String)
        (hostname : String) (zones : List (String × CloudflareZone))
        (zone : CloudflareZone) (rec : CloudflareDnsRecord),
        lookupZone zones (domainNameFor name? hostname) = some zone →
        (CloudflareClient.findRecord api zone hostname isIPV4).2 = .ok rec →
        ∃ rr, goStep api ip isIPV4 name? hostname zones =
          ([ClientCall.findRecord zone hostname isIPV4,
            ClientCall.updateRecord rec ip], zones, rr)) := by
  refine ⟨rfl, ?_, ?_⟩
  · intro r2 h
    unfold CloudflareClient.updateRecord at h
    dsimp only at h
    cases hedit : api.dnsRecordsEdit record.id
        { zone_id := record.zone_id, rtype := record.rtype,
          name := record.name, content := value, ttl := record.ttl,
          proxied := record.proxied } with
    | error e => rw [hedit] at h; exact absurd h (by simp)
    | ok v =>
      rw [hedit] at h
      have := Except.ok.inj h
      rw [← this]
  · intro ip isIPV4 name? hostname zones zone rec hlook hfr
    simp only [goStep, hlook, goStepRecord, hfr]
    cases hur : (CloudflareClient.updateRecord api rec ip).2 with
    | error e2 => exact ⟨.error e2, by simp [hur]⟩
    | ok v => exact ⟨.ok (), by simp [hur]⟩

/-- C8 witness: a record whose content already equals the new value still
gets its edit call, with name, TTL and proxied passed through; and in the
orchestrator a found record with matching content is still updated. -/
theorem claim_c8_witness :
    (CloudflareClient.updateRecord demoApi
      { id := "r1", zone_id := "z1", rtype := "A", name := "h.example.com",
        content := "1.2.3.4", proxied := false, ttl := 1 } "1.2.3.4").1 =
      [RawCall.dnsRecordsEdit "r1"
        { zone_id := "z1", rtype := "A", name := "h.example.com",
          content := "1.2.3.4", ttl := 1, proxied := false }]
    ∧ (goStep demoApi "9.9.9.9" true none "a.example.com"
        [("example.com", { id := "zone-example.com", name := "example.com" })]).1 =
      [ClientCall.findRecord { id := "zone-example.com", name := "example.com" }
         "a.example.com" true,
       ClientCall.updateRecord
         { id := "rec1", zone_id := "zone-example.com", rtype := "A",
           name := "a.example.com", content := "9.9.9.9", proxied := false,
           ttl := 300 } "9.9.9.9"] := by
  constructor
  · exact (claim_c8 demoApi
      { id := "r1", zone_id := "z1", rtype := "A", name := "h.example.com",
        content := "1.2.3.4", proxied := false, ttl := 1 } "1.2.3.4").1
  · obtain ⟨rr, hh⟩ := (claim_c8 demoApi
      { id := "rec1", zone_id := "zone-example.com", rtype := "A",
        name := "a.example.com", content := "9.9.9.9", proxied := false,
        ttl := 300 } "9.9.9.9").2.2 "9.9.9.9" true none "a.example.com"
      [("example.com", { id := "zone-example.com", name := "example.com" })]
      { id := "zone-example.com", name := "example.com" }
      { id := "rec1", zone_id := "zone-example.com", rtype := "A",
        name := "a.example.com", content := "9.9.9.9", proxied := false,
        ttl := 300 } (by decide) (by decide)
    rw [hh]

/-- C9: a failed request is not atomic: when the first ip's DNS updates and
access-group update all succeed and the second ip's DNS loop fails, the
response is the mapped error, while the trace still contains every call
already issued for the first ip (its record updates in t1 and its
access-group PUT); no compensating call follows the failure. -/
theorem claim_c9 (request : Request) (env : Env) (api : RawApi)
    (creds : AuthCredentials) (hostnames : List String) (ip1 ip2 : String)
    (a g : String) (t1 t2 : List ClientCall) (e : WorkerError)
    (hpath : strEndsWith request.pathname "/update" = true)
    (hauth : ((headerGet request "Authorization").isNone &&
      (paramGet request "token").isNone) = false)
    (hparse : parseBasicAuth request = .ok creds)
    (hh : resolvedHostnames request = some hostnames)
    (hi : resolvedIps request = some [ip1, ip2])
    (hhne : hostnames ≠ [])
    (hacct : jsOr (paramGet request "account") env.ACCOUNT_ID = some a)
    (hane : a ≠ "")
    (hgrp : jsOr (paramGet request "group") env.ACCESS_GROUP_ID = some g)
    (hgne : g ≠ "")
    (h1 : updateDNSRecords api hostnames (jsTrim ip1) creds.username
      = (t1, .ok ()))
    (h2 : (CloudflareClient.updateAccessGroup api a g ip1).2 = .ok ())
    (h3 : updateDNSRecords api hostnames (jsTrim ip2) creds.username
      = (t2, .error e)) :
    fetchHandler request env api =
      (t1 ++ ClientCall.updateAccessGroup a g ip1 :: t2,
       { status := errStatus e, body := some (errMessage e) }) := by
  have hrun := handleRequest_run request env api creds hostnames [ip1, ip2]
    hpath hauth hparse hh hi hhne (by simp)
  rw [hacct, hgrp] at hrun
  have hja : (jsTruthy (some a) && jsTruthy (some g)) = true := by
    simp [jsTruthy, hane, hgne]
  have hips : handleIPs api hostnames creds.username (some a) (some g)
      [ip1, ip2] =
      (t1 ++ ClientCall.updateAccessGroup a g ip1 :: t2, .error e) := by
    simp only [handleIPs, h1, h3, h2, hja, if_true, Option.getD_some]
  rw [hips] at hrun
  unfold fetchHandler
  rw [hrun]

/-- C9 witness: hostname a.example.com, ips 1.2.3.4 then 5.6.7.8; the
second edit fails upstream; the trace keeps the first ip's record update
and access-group PUT, and the response carries the upstream reason with
status 500. -/
theorem claim_c9_witness :
    fetchHandler
      { scheme := "https", pathname := "/update",
        searchParams := [("hostname", "a.example.com"),
          ("ips", "1.2.3.4,5.6.7.8"), ("token", "T"), ("account", "acc"),
          ("group", "grp")],
        headers := [] }
      testEnv failSecondApi =
      ([ClientCall.findZone "example.com",
        ClientCall.findRecord { id := "zone-example.com", name := "example.com" }
          "a.example.com" true,
        ClientCall.updateRecord
          { id := "rec1", zone_id := "zone-example.com", rtype := "A",
            name := "a.example.com", content := "9.9.9.9", proxied := false,
            ttl := 300 } "1.2.3.4",
        ClientCall.updateAccessGroup "acc" "grp" "1.2.3.4",
        ClientCall.findZone "example.com",
        ClientCall.findRecord { id := "zone-example.com", name := "example.com" }
          "a.example.com" true,
        ClientCall.updateRecord
          { id := "rec1", zone_id := "zone-example.com", rtype := "A",
            name := "a.example.com", content := "9.9.9.9", proxied := false,
            ttl := 300 } "5.6.7.8"],
       { status := 500, body := some "boom" }) := by
  have h := claim_c9
    { scheme := "https", pathname := "/update",
      searchParams := [("hostname", "a.example.com"),
        ("ips", "1.2.3.4,5.6.7.8"), ("token", "T"), ("account", "acc"),
        ("group", "grp")],
      headers := [] }
    testEnv failSecondApi { username := none, password := none }
    ["a.example.com"] "1.2.3.4" "5.6.7.8" "acc" "grp"
    [ClientCall.findZone "example.com",
     ClientCall.findRecord { id := "zone-example.com", name := "example.com" }
       "a.example.com" true,
     ClientCall.updateRecord
       { id := "rec1", zone_id := "zone-example.com", rtype := "A",
         name := "a.example.com", content := "9.9.9.9", proxied := false,
         ttl := 300 } "1.2.3.4"]
    [ClientCall.findZone "example.com",
     ClientCall.findRecord { id := "zone-example.com", name := "example.com" }
       "a.example.com" true,
     ClientCall.updateRecord
       { id := "rec1", zone_id := "zone-example.com", rtype := "A",
         name := "a.example.com", content := "9.9.9.9", proxied := false,
         ttl := 300 } "5.6.7.8"]
    (.api "boom" 500)
    (by decide) (by decide) (by decide) (by decide) (by decide) (by decide)
    (by decide) (by decide) (by decide) (by decide) (by decide) (by decide)
    (by decide)
  exact h.trans (by decide)

/-- `a || b` is null exactly when `a` is absent or empty and `b` is null. -/
theorem jsOr_eq_none (a b : Option String) :
    jsOr a b = none ↔ (optFalsy a ∧ b = none) := by
  unfold jsOr optFalsy
  cases a with
  | none => simp
  | some s => by_cases hs : s = "" <;> simp [hs]

/-- C10 counterexample: `hostname=` (present but empty) does not resolve to
[""]: the empty value is falsy and every other source is absent, so the
hostname list resolves to nothing, the request is answered 400, and no
provider call (in particular no zone lookup) is issued. -/
theorem claim_c10_counterexample :
    resolvedHostnames
      { scheme := "https", pathname := "/update",
        searchParams := [("hostname", ""), ("ip", "1.2.3.4"), ("token", "T")],
        headers := [] } = none
    ∧ fetchHandler
        { scheme := "https", pathname := "/update",
          searchParams := [("hostname", ""), ("ip", "1.2.3.4"), ("token", "T")],
          headers := [] } testEnv demoApi =
        ([], { status := 400,
               body := some "You must specify both hostname(s) and IP address(es)" }) := by
  constructor
  · decide
  · decide

/-- C10 (amended): an empty-valued hostname (or host) parameter is JS-falsy
and is skipped in favor of the next source rather than resolving to [""];
the hostname list resolves to nothing (taking the Bad-Request branch)
exactly when hostname and host are absent or empty and domains is absent;
only the final source yields [""] when present and empty; and an
empty-string hostname that does reach the orchestrator (e.g. from
hostname=",") reaches the provider zone lookup findZone "". -/
theorem claim_c10 :
    (∀ request : Request, resolvedHostnames request = none ↔
      (optFalsy (paramGet request "hostname")
        ∧ optFalsy (paramGet request "host")
        ∧ paramGet request "domains" = none))
    ∧ (∀ request : Request, paramGet request "hostname" = some "" →
        resolvedHostnames request =
          (jsOr (paramGet request "host") (paramGet request "domains")).map
            (fun s => jsSplit s ','))
    ∧ (∀ request : Request, paramGet request "hostname" = none →
        paramGet request "host" = none →
        paramGet request "domains" = some "" →
        resolvedHostnames request = some [""])
    ∧ (∀ (env : Env) (api : RawApi),
        ((fetchHandler
          { scheme := "https", pathname := "/update",
            searchParams := [("hostname", ","), ("ip", "1.2.3.4"),
              ("token", "T")], headers := [] } env api).1).head? =
          some (ClientCall.findZone "")) := by
  refine ⟨?_, ?_, ?_, ?_⟩
  · intro request
    unfold resolvedHostnames
    have hmap : ∀ (o : Option String),
        o.map (fun s => jsSplit s ',') = none ↔ o = none := by
      intro o; cases o <;> simp
    rw [hmap, jsOr_eq_none, jsOr_eq_none]
  · intro request h1
    unfold resolvedHostnames
    rw [h1]
    rfl
  · intro request h1 h2 h3
    unfold resolvedHostnames
    rw [h1, h2, h3]
    rfl
  · intro env api
    have hrun := handleRequest_run
      { scheme := "https", pathname := "/update",
        searchParams := [("hostname", ","), ("ip", "1.2.3.4"), ("token", "T")],
        headers := [] } env api { username := none, password := none }
      ["", ""] ["1.2.3.4"] (by decide) (by decide) (by decide) (by decide)
      (by decide) (by decide) (by decide)
    have hhead : ((updateDNSRecords api ["", ""] (jsTrim "1.2.3.4")
        none).1).head? = some (ClientCall.findZone "") := by
      have hz : lookupZone [] (domainNameFor none "") = none := rfl
      have hg := go_head api (jsTrim "1.2.3.4")
        ((jsTrim "1.2.3.4").toList.contains '.') none "" [""] [] hz
      have hdom : domainNameFor none "" = "" := by decide
      rw [hdom] at hg
      exact hg
    obtain ⟨t2, htr⟩ := handleIPs_cons_trace api ["", ""] none
      (jsOr (paramGet
        { scheme := "https", pathname := "/update",
          searchParams := [("hostname", ","), ("ip", "1.2.3.4"), ("token", "T")],
          headers := [] } "account") env.ACCOUNT_ID)
      (jsOr (paramGet
        { scheme := "https", pathname := "/update",
          searchParams := [("hostname", ","), ("ip", "1.2.3.4"), ("token", "T")],
          headers := [] } "group") env.ACCESS_GROUP_ID) "1.2.3.4" []
    unfold fetchHandler
    rw [hrun]
    dsimp only
    cases ht2 : (handleIPs api ["", ""] none
        (jsOr (paramGet
          { scheme := "https", pathname := "/update",
            searchParams := [("hostname", ","), ("ip", "1.2.3.4"),
              ("token", "T")], headers := [] } "account") env.ACCOUNT_ID)
        (jsOr (paramGet
          { scheme := "https", pathname := "/update",
            searchParams := [("hostname", ","), ("ip", "1.2.3.4"),
              ("token", "T")], headers := [] } "group") env.ACCESS_GROUP_ID)
        ["1.2.3.4"]).2 with
    | error e =>
      simp only [ht2]
      rw [htr]
      exact head?_append_left _ t2 _ hhead
    | ok u =>
      simp only [ht2]
      rw [htr]
      exact head?_append_left _ t2 _ hhead

/-- C10 witness: the amended claim at concrete inputs: `hostname=` skips to
the host/domains sources; `domains=` (the final source) yields [""]; and
with demoApi the hostname="," request's first provider call is
findZone "". -/
theorem claim_c10_witness :
    resolvedHostnames
      { scheme := "https", pathname := "/update",
        searchParams := [("hostname", ""), ("host", "x.example.org")],
        headers := [] } = some ["x.example.org"]
    ∧ resolvedHostnames
        { scheme := "https", pathname := "/update",
          searchParams := [("domains", "")], headers := [] } = some [""]
    ∧ ((fetchHandler
        { scheme := "https", pathname := "/update",
          searchParams := [("hostname", ","), ("ip", "1.2.3.4"),
            ("token", "T")], headers := [] } testEnv demoApi).1).head? =
        some (ClientCall.findZone "") := by
  refine ⟨?_, ?_, claim_c10.2.2.2 testEnv demoApi⟩
  · rw [claim_c10.2.1 _ (by decide)]
    decide
  · rw [claim_c10.2.2.1 _ (by decide) (by decide) (by decide)]
